import Mathlib

/-!
Verification development for the confluence-fetcher repository
(`src/confluence_client.py`, `src/confluence_fetcher.py`).

The Python source is shallowly embedded as executable Lean definitions:

* The paginated REST loop `ConfluenceClient._paginated_get` and the
  per-resource loops of the fetcher variant (`get_spaces`,
  `get_pages_for_space`, `get_page_attachments`) are modelled as pure
  functions over the finite sequence of server responses consumed by one
  run of the loop.
* `rewrite_links` parses HTML with BeautifulSoup(`html.parser`) and
  re-serialises it.  The library is embedded in its two layers: the
  `html.parser` event scan (start tags with attributes, end tags by the
  strict and the tolerant pattern, comments and bogus comments, doctype
  declarations, processing instructions, CDATA sections, the raw-text
  modes of `script`/`style`, the data fallbacks for constructs truncated
  by end of input, and character-reference decoding for the entities the
  serializer emits), and BeautifulSoup's tree construction (end tags
  matched against the stack of open elements and discarded when
  unmatched, elements still open at end of input closed, void ("empty")
  elements rendered with a trailing slash, whitespace-only strings
  collapsed outside `pre`/`textarea`, whitespace-list attribute values
  such as `class` split and re-joined, names lower-cased, valueless
  attributes stored as the empty string, minimal entity substitution of
  `&`, `<`, `>` on output and BeautifulSoup's attribute-quoting rule).
  All scanning functions take explicit fuel (input length + 1 always
  suffices), so the whole pipeline is structurally recursive and
  evaluable by the kernel on concrete inputs.
* `sanitize_directory_name`, `export_page_content` and `main` are
  embedded with the external collaborators (HTTP transport, pandoc,
  directory creation) abstracted as response data / oracle functions,
  exactly as the specification's scope section prescribes.
-/

/-! ## Basic character utilities -/

/-- ASCII letter test, as used by `html.parser` to recognise tag starts. -/
def isAsciiAlphaC (c : Char) : Bool :=
  ('a' ≤ c && c ≤ 'z') || ('A' ≤ c && c ≤ 'Z')

/-- Whitespace as in the `\s` class of Python's `re` module (ASCII part),
used by `html.parser` between attributes. -/
def isWsC (c : Char) : Bool :=
  c = ' ' || c = '\t' || c = '\n' || c = '\x0d' || c = '\x0c' || c = '\x0b'

/-- ASCII lower-casing of a character, as applied by `html.parser` to tag
and attribute names. -/
def lowerC (c : Char) : Char :=
  if 'A' ≤ c && c ≤ 'Z' then Char.ofNat (c.toNat + 32) else c

/-! ## Pagination model (`ConfluenceClient._paginated_get`, source lines 87-109,
and the fetcher-variant loops, `confluence_fetcher.py` lines 43-68). -/

/-- One JSON response of a list endpoint: the `results` array and the
optional `_links.next` path. -/
structure PageResp (α : Type) where
  results : List α
  next : Option String
deriving DecidableEq, Repr

/-- Python `str.removeprefix`: drop `p` from the front of `s` when `s`
starts with it, otherwise return `s` unchanged (source line 107). -/
def pyRemovePfx (s p : String) : String :=
  if p.data.isPrefixOf s.data then String.mk (s.data.drop p.data.length) else s

/-- The fixed API-version segment stripped from `_links.next`
(source line 107). -/
def apiV2 : String := "/wiki/api/v2"

/-- Result accumulation of `_paginated_get`: the argument lists the
responses the server returns to the successive requests of one run of the
`while` loop.  Each iteration appends `data.get('results', [])` and
continues exactly when `_links.next` is present. -/
def paginated_get {α : Type} : List (PageResp α) → List α
  | [] => []
  | r :: rest =>
    r.results ++ (if r.next.isSome then paginated_get rest else [])

/-- Request trace of `_paginated_get`: the `(endpoint, kwargs)` pairs of
the requests issued during one run.  `kw` models the `**kwargs` that the
Python code passes to `self._make_request('get', next_url, **kwargs)` on
every iteration of the loop; the next endpoint is the `_links.next` path
with the API-version segment removed. -/
def paginated_requests {α : Type} (kw : List (String × String)) :
    String → List (PageResp α) → List (String × List (String × String))
  | _, [] => []
  | url, r :: rest =>
    (url, kw) :: (match r.next with
      | none => []
      | some np => paginated_requests kw (pyRemovePfx np apiV2) rest)

/-- A well-formed run of the pagination loop: every response before the
last carries a `_links.next` pointer and the last one does not, so the
responses are exactly the pages of one listing. -/
def chainedRun {α : Type} : List (PageResp α) → Bool
  | [] => true
  | [r] => r.next.isNone
  | r :: s :: rest => r.next.isSome && chainedRun (s :: rest)

/-- The fetcher-variant loop (`get_spaces` / `get_pages_for_space` /
`get_page_attachments` in `confluence_fetcher.py`): same accumulation,
but a failed request (modelled as `none` in the response stream) makes
the whole function return `None`, discarding any partial results. -/
def fetcher_loop {α : Type} : List (Option (PageResp α)) → Option (List α)
  | [] => some []
  | none :: _ => none
  | some r :: rest =>
    if r.next.isSome then (fetcher_loop rest).map (r.results ++ ·)
    else some r.results

/-! ## `sanitize_directory_name` (`confluence_fetcher.py` lines 34-41). -/

/-- The character class of `re.sub(r'[<>:"/\\|?*]', '_', name)`. -/
def invalidDirChar (c : Char) : Bool :=
  c = '<' || c = '>' || c = ':' || c = '"' || c = '/' ||
  c = '\\' || c = '|' || c = '?' || c = '*'

/-- `sanitize_directory_name`: first `re.sub(r'[<>:"/\\|?*]', '_', name)`,
then `.replace(' ', '_')`, exactly the two passes of the source. -/
def sanitize_directory_name (name : String) : String :=
  String.mk (((name.data.map fun c => if invalidDirChar c then '_' else c).map
    fun c => if c = ' ' then '_' else c))

/-- Modelled from the claim text: a single pass replacing each of
`< > : " / \ | ? *` and the space character by an underscore and leaving
every other character unchanged. -/
def claimSanitize (name : String) : String :=
  String.mk (name.data.map fun c =>
    if invalidDirChar c || c = ' ' then '_' else c)

/-! ## HTML token model for `rewrite_links` (`confluence_fetcher.py` lines
151-163).

`rewrite_links` runs `BeautifulSoup(html_content, 'html.parser')`, mutates
the `src`/`href` attribute of every `img`/`a` tag whose value contains the
marker `'/download/attachments/'`, and returns `str(soup)`.  The embedding
below follows the two layers of the library: the `html.parser` event scan
(`tokenize0`), producing a flat stream of tokens in document order, and
the tree construction of `BeautifulSoup` (`treeRepair`), which matches end
tags against the stack of open elements (`_popToTag`, discarding an end
tag with no open element of that name), closes elements still open at end
of input, collapses whitespace-only strings, and splits/rejoins the
whitespace-separated attribute values (`class` and friends).
`find_all` traverses tags in document order, which is the token order.
Character references are handled for the set `&amp; &lt; &gt; &quot;
&#39;` (with semicolon); the scan follows `html.parser` for start tags,
end tags, comments, bogus comments, `<!doctype ...>` declarations,
processing instructions, `CDATA` sections, the raw-text (`CDATA content`)
modes of `script`/`style`, and the data fallbacks for constructs
truncated by the end of input.  All functions take explicit fuel
(`length + 1` always suffices) and are therefore structurally recursive
and computable by the kernel. -/

/-- A node of the flattened BeautifulSoup document: a text run, a start
tag carrying its attribute dictionary (names lower-cased; a valueless
attribute is stored with the empty string, as the tree builder does), an
end tag, a comment (`Comment`, also produced by bogus comments), a
processing instruction, a `<!doctype ...>` declaration, a CDATA section,
or the raw text content of a `script`/`style` element (serialised without
entity substitution). -/
inductive HTok where
  | text (s : List Char)
  | tagO (nm : List Char) (attrs : List (List Char × List Char))
  | tagC (nm : List Char)
  | comment (s : List Char)
  | pi (s : List Char)
  | decl (s : List Char)
  | cdata (s : List Char)
  | raw (s : List Char)
deriving DecidableEq, Repr

/-- The empty-element ("void") tags of BeautifulSoup's HTML tree builder:
these never take children and are serialised with a trailing slash. -/
def voidTags : List (List Char) :=
  ["area".data, "base".data, "basefont".data, "bgsound".data, "br".data,
   "col".data, "command".data, "embed".data, "frame".data, "hr".data,
   "image".data, "img".data, "input".data, "isindex".data, "keygen".data,
   "link".data, "menuitem".data, "meta".data, "nextid".data, "param".data,
   "source".data, "spacer".data, "track".data, "wbr".data]

/-- Whether a (lower-cased) tag name is an empty element. -/
def isVoidTag (nm : List Char) : Bool := voidTags.contains nm

/-- Left-to-right character-reference decoding, as `html.parser` applies
to data and attribute values (`convert_charrefs=True`); the model handles
`&amp;` `&lt;` `&gt;` `&quot;` `&#39;` and, as `html.unescape` resolves
legacy references by longest known prefix, the semicolon-free `&amp`
`&lt` `&gt` `&quot`; references outside this set stay literal. -/
def decodeEnts : List Char → List Char
  | [] => []
  | '&' :: 'a' :: 'm' :: 'p' :: ';' :: r => '&' :: decodeEnts r
  | '&' :: 'l' :: 't' :: ';' :: r => '<' :: decodeEnts r
  | '&' :: 'g' :: 't' :: ';' :: r => '>' :: decodeEnts r
  | '&' :: 'q' :: 'u' :: 'o' :: 't' :: ';' :: r => '"' :: decodeEnts r
  | '&' :: '#' :: '3' :: '9' :: ';' :: r => '\'' :: decodeEnts r
  | '&' :: 'a' :: 'm' :: 'p' :: r => '&' :: decodeEnts r
  | '&' :: 'l' :: 't' :: r => '<' :: decodeEnts r
  | '&' :: 'g' :: 't' :: r => '>' :: decodeEnts r
  | '&' :: 'q' :: 'u' :: 'o' :: 't' :: r => '"' :: decodeEnts r
  | c :: rest => c :: decodeEnts rest

/-- BeautifulSoup's `minimal` output formatter on one character:
`&`, `<`, `>` become entity references, everything else is literal. -/
def encodeChar (c : Char) : List Char :=
  if c = '&' then ['&', 'a', 'm', 'p', ';']
  else if c = '<' then ['&', 'l', 't', ';']
  else if c = '>' then ['&', 'g', 't', ';']
  else [c]

/-- `minimal`-formatter substitution over a string. -/
def encodeEnts : List Char → List Char
  | [] => []
  | c :: rest => encodeChar c ++ encodeEnts rest

/-- Replace each double quote by `&quot;` (used when an attribute value
contains both kinds of quote). -/
def escQuotC (c : Char) : List Char :=
  if c = '"' then ['&', 'q', 'u', 'o', 't', ';'] else [c]

/-- Pointwise `escQuotC`. -/
def escQuot : List Char → List Char
  | [] => []
  | c :: rest => escQuotC c ++ escQuot rest

/-- BeautifulSoup's `quoted_attribute_value` composed with the `minimal`
substitution: values are double-quoted; a value containing a double quote
is single-quoted instead, unless it also contains a single quote, in
which case the double quotes are turned into `&quot;`. -/
def quoteAttrVal (v : List Char) : List Char :=
  let e := encodeEnts v
  if e.contains '"' then
    if e.contains '\'' then '"' :: (escQuot e ++ ['"'])
    else '\'' :: (e ++ ['\''])
  else '"' :: (e ++ ['"'])

/-- Serialise one attribute: a leading space, the name, `=`, and the
quoted value. -/
def serAttr (a : List Char × List Char) : List Char :=
  ' ' :: (a.1 ++ '=' :: quoteAttrVal a.2)

/-- Serialise an attribute dictionary in insertion order. -/
def serAttrs : List (List Char × List Char) → List Char
  | [] => []
  | a :: rest => serAttr a ++ serAttrs rest

/-- Serialise one token the way `str(soup)` renders the corresponding
node: text through the `minimal` formatter, start tags with their
attributes (a trailing slash for empty elements), end tags plainly;
comments, processing instructions, declarations, CDATA sections and
script/style contents are rendered verbatim inside their delimiters
(`PreformattedString` subclasses are exempt from entity substitution). -/
def serTok : HTok → List Char
  | .text s => encodeEnts s
  | .tagO nm attrs =>
      '<' :: (nm ++ serAttrs attrs ++ (if isVoidTag nm then ['/', '>'] else ['>']))
  | .tagC nm => '<' :: '/' :: (nm ++ ['>'])
  | .comment s => '<' :: '!' :: '-' :: '-' :: (s ++ ['-', '-', '>'])
  | .pi s => '<' :: '?' :: (s ++ ['>'])
  | .decl s => '<' :: '!' :: (s ++ ['>'])
  | .cdata s => '<' :: '!' :: '[' :: ("CDATA[".data ++ s ++ [']', ']', '>'])
  | .raw s => s

/-- Serialise a token stream. -/
def serToks : List HTok → List Char
  | [] => []
  | t :: rest => serTok t ++ serToks rest

/-- Characters admissible inside a tag name (`tagfind_tolerant` ends the
name at whitespace, `/` or `>`); also the first character of an attribute
name (`[^\s/>]`). -/
def nameChar (c : Char) : Bool := !isWsC c && c != '/' && c != '>'

/-- Characters admissible after the first character of an attribute name
(additionally ended by `=`). -/
def attrNameChar (c : Char) : Bool :=
  !isWsC c && c != '/' && c != '>' && c != '='

/-- Characters admissible in the restrictive end-tag name of
`endtagfind` (`[-.a-zA-Z0-9:_]`). -/
def endNameChar (c : Char) : Bool :=
  isAsciiAlphaC c || (('0' ≤ c && c ≤ '9') : Bool) ||
  c = '-' || c = '.' || c = ':' || c = '_'

/-- Characters that terminate an unquoted attribute value. -/
def unquotedEndC (c : Char) : Bool := isWsC c || c = '>'

/-- Store an attribute in the dictionary: an existing key keeps its
position and gets the new value (the tree builder's default
`on_duplicate_attribute` replaces), a new key is appended (Python `dict`
insertion semantics, also used by `tag[attr] = value`). -/
def attrsInsert : List (List Char × List Char) → List Char → List Char →
    List (List Char × List Char)
  | [], n, v => [(n, v)]
  | (m, w) :: rest, n, v =>
    if m = n then (n, v) :: rest else (m, w) :: attrsInsert rest n v

/-- Dictionary lookup, `tag.get(attr)`. -/
def attrsGet : List (List Char × List Char) → List Char → Option (List Char)
  | [], _ => none
  | (m, w) :: rest, n => if m = n then some w else attrsGet rest n

/-- Attribute scanner of `html.parser` inside a start tag
(`attrfind_tolerant`), beginning just after the tag name, with explicit
fuel.  Returns the accumulated attribute dictionary, the self-closing
flag (a `/` immediately before `>`), the number of input characters
consumed up to and including the closing `>`, and whether the closing `>`
was reached at all (`False` marks a tag truncated by end of input, which
`parse_starttag` reports as incomplete).  Whitespace and stray `/` are
skipped; an attribute name starts with any character other than
whitespace, `/`, `>` (so `=` can begin a name) and continues with
characters other than whitespace, `/`, `>`, `=`; it may be followed by
`=+` (with surrounding whitespace) and a double-quoted, single-quoted or
unquoted value, else its value is the empty string. -/
def parseAttrsF : Nat → List Char → List (List Char × List Char) →
    List (List Char × List Char) × Bool × Nat × Bool
  | 0, _, acc => (acc, false, 0, false)
  | _ + 1, [], acc => (acc, false, 0, false)
  | n + 1, c :: rest, acc =>
    if c = '>' then (acc, false, 1, true)
    else if c = '/' then
      if rest.head? = some '>' then (acc, true, 2, true)
      else
        let p := parseAttrsF n rest acc
        (p.1, p.2.1, p.2.2.1 + 1, p.2.2.2)
    else if isWsC c then
      let p := parseAttrsF n rest acc
      (p.1, p.2.1, p.2.2.1 + 1, p.2.2.2)
    else
      let an := (c :: rest.takeWhile attrNameChar).map lowerC
      let t0 := rest.dropWhile attrNameChar
      match (t0.dropWhile isWsC) with
      | '=' :: r3 =>
        match (r3.dropWhile (fun d => d = '=')).dropWhile isWsC with
        | '"' :: r5 =>
          match r5.dropWhile (fun d => d != '"') with
          | _ :: r6 =>
            let v := decodeEnts (r5.takeWhile (fun d => d != '"'))
            let p := parseAttrsF n r6 (attrsInsert acc an v)
            (p.1, p.2.1, ((c :: rest).length - r6.length) + p.2.2.1, p.2.2.2)
          | [] => (acc, false, (c :: rest).length, false)
        | '\'' :: r5 =>
          match r5.dropWhile (fun d => d != '\'') with
          | _ :: r6 =>
            let v := decodeEnts (r5.takeWhile (fun d => d != '\''))
            let p := parseAttrsF n r6 (attrsInsert acc an v)
            (p.1, p.2.1, ((c :: rest).length - r6.length) + p.2.2.1, p.2.2.2)
          | [] => (acc, false, (c :: rest).length, false)
        | r4 =>
          let v := decodeEnts (r4.takeWhile (fun d => !unquotedEndC d))
          let rest2 := r4.dropWhile (fun d => !unquotedEndC d)
          let p := parseAttrsF n rest2 (attrsInsert acc an v)
          (p.1, p.2.1, ((c :: rest).length - rest2.length) + p.2.2.1, p.2.2.2)
      | _ =>
        let p := parseAttrsF n t0 (attrsInsert acc an [])
        (p.1, p.2.1, ((c :: rest).length - t0.length) + p.2.2.1, p.2.2.2)

/-- `parseAttrsF` with enough fuel. -/
def parseAttrs (l : List Char) (acc : List (List Char × List Char)) :
    List (List Char × List Char) × Bool × Nat × Bool :=
  parseAttrsF (l.length + 1) l acc

/-- Split a character list at its first `>`:
`some (a, b)` with `l = a ++ '>' :: b`, or `none` if there is no `>`
(`endendtag`, `piclose`, and the bogus-comment/doctype scans all locate
the next `>`). -/
def splitAtGt : List Char → Option (List Char × List Char)
  | [] => none
  | c :: rest =>
    if c = '>' then some ([], rest)
    else
      match splitAtGt rest with
      | some (a, b) => some (c :: a, b)
      | none => none

/-- The strict end-tag pattern `endtagfind` (`</\s*name\s*>` with name
`[a-zA-Z][-.a-zA-Z0-9:_]*`), evaluated on the characters following `</`:
on success, the lower-cased name and the remainder after `>`. -/
def endTagRestrict (r : List Char) : Option (List Char × List Char) :=
  match r.dropWhile isWsC with
  | c :: r2 =>
    if isAsciiAlphaC c then
      match (r2.dropWhile endNameChar).dropWhile isWsC with
      | '>' :: r4 => some ((c :: r2.takeWhile endNameChar).map lowerC, r4)
      | _ => none
    else none
  | [] => none

/-- Recognise the comment terminator `--\s*>` (`commentclose`) at the
head of the list, returning the remainder after `>`. -/
def commentCloseAt : List Char → Option (List Char)
  | '-' :: '-' :: r =>
    (match r.dropWhile isWsC with
     | '>' :: r2 => some r2
     | _ => none)
  | _ => none

/-- Recognise the marked-section terminator `]\s*]\s*>`
(`_markedsectionclose`) at the head of the list, returning the remainder
after `>`. -/
def mscloseAt : List Char → Option (List Char)
  | ']' :: r =>
    (match r.dropWhile isWsC with
     | ']' :: r2 =>
       (match r2.dropWhile isWsC with
        | '>' :: r3 => some r3
        | _ => none)
     | _ => none)
  | _ => none

/-- Scan for the first position where `f` recognises a terminator:
`some (a, b)` where `a` is the content before the match and `b` the
remainder after it. -/
def scanSplit (f : List Char → Option (List Char)) : List Char →
    Option (List Char × List Char)
  | [] => none
  | c :: rest =>
    match f (c :: rest) with
    | some r2 => some ([], r2)
    | none =>
      match scanSplit f rest with
      | some (a, b) => some (c :: a, b)
      | none => none

/-- The data fallback of `goahead` for a `<` whose construct cannot be
completed (`parse_starttag`/`parse_endtag`/... returned `-1` at end of
input): everything up to and including the next `>` becomes one raw data
chunk; with no `>`, up to (excluding) the next `<`; with neither, the
`<` alone is data and scanning resumes right after it.  The argument is
the input after the `<`; the first component includes the `<` and is
raw (not reference-decoded), the second is where scanning resumes. -/
def fallbackSplit (r : List Char) : List Char × List Char :=
  match splitAtGt r with
  | some (a, b) => ('<' :: (a ++ ['>']), b)
  | none =>
    if r.any (fun c => c = '<') then
      ('<' :: r.takeWhile (fun c => c != '<'), r.dropWhile (fun c => c != '<'))
    else (['<'], r)

/-- Recognise a complete raw-text-closing end tag `</\\s*name\\s*>`
(case-insensitively; `set_cdata_mode` installs exactly this pattern as
the scan target) at the head of the list, returning the remainder after
`>`. -/
def cdataCloseAt (nm : List Char) (l : List Char) : Option (List Char) :=
  match l with
  | '<' :: '/' :: r =>
    let r1 := r.dropWhile isWsC
    if (r1.take nm.length).map lowerC = nm then
      match (r1.drop nm.length).dropWhile isWsC with
      | '>' :: r2 => some r2
      | _ => none
    else none
  | _ => none

/-- The raw-text scan of a `script`/`style` element: everything up to the
first complete `</\\s*name\\s*>` is the element content (verbatim, no
reference decoding); without one, the parser buffers the rest and never
flushes it, so the content is dropped and the element stays open
(`none`). -/
def cdataScan (nm l : List Char) : Option (List Char × List Char) :=
  scanSplit (cdataCloseAt nm) l

/-- The raw-text elements of `html.parser` (`CDATA_CONTENT_ELEMENTS`). -/
def isCdataElem (nm : List Char) : Bool :=
  nm = "script".data || nm = "style".data

/-- One `html.parser` scan step at a `<` holding a start tag (the leading
`<` is already consumed; `c` is an ASCII letter).  Produces the tokens
for the construct and the remainder, `none` in the remainder meaning the
rest of the input was swallowed by an unterminated raw-text element. -/
def startTagStep (c : Char) (rest : List Char) : List HTok × Option (List Char) :=
  let nm := ((c :: rest).takeWhile nameChar).map lowerC
  let q := parseAttrs ((c :: rest).dropWhile nameChar) []
  if q.2.2.2 then
    let after := ((c :: rest).dropWhile nameChar).drop q.2.2.1
    if isCdataElem nm && !q.2.1 then
      match cdataScan nm after with
      | some (content, r2) =>
        (HTok.tagO nm q.1 ::
          ((if content = [] then [] else [HTok.raw content]) ++ [HTok.tagC nm]),
         some r2)
      | none => ([HTok.tagO nm q.1], none)
    else
      ((if isVoidTag nm then [HTok.tagO nm q.1]
        else if q.2.1 then [HTok.tagO nm q.1, HTok.tagC nm]
        else [HTok.tagO nm q.1]), some after)
  else
    let f := fallbackSplit (c :: rest)
    (f.1.map (fun d => HTok.text [d]), some f.2)

/-- Raw tokenizer: `html.parser`'s event scan with explicit fuel,
emitting one token per construct and one single-character text token per
data character (adjacent text is coalesced by `mergeTexts`, references
decoded by `decodeTextTok`; the chunks of the data fallback are also
reference-decoded, as `goahead` unescapes them).  `</` starts an end tag by the strict pattern, else the
tolerant one when an ASCII letter follows, `</>` is skipped, and any
other `</` with a later `>` becomes a bogus comment; `<!--` starts a
comment, `<![CDATA[` a CDATA section, `<!doctype` (any case) a
declaration, any other `<!` a bogus comment, `<?` a processing
instruction; `<` followed by an ASCII letter starts a start tag
(`startTagStep`), and any other `<` is data. -/
def tokenize0F : Nat → List Char → List HTok
  | 0, _ => []
  | _ + 1, [] => []
  | n + 1, '<' :: '/' :: r =>
    (match splitAtGt r with
     | none =>
       let f := fallbackSplit ('/' :: r)
       f.1.map (fun d => HTok.text [d]) ++ tokenize0F n f.2
     | some (a, b) =>
       match endTagRestrict r with
       | some (nm, r2) =>
         (if isVoidTag nm then [] else [HTok.tagC nm]) ++ tokenize0F n r2
       | none =>
         match r with
         | c :: r3 =>
           if isAsciiAlphaC c then
             let nm := ((c :: r3).takeWhile nameChar).map lowerC
             (if isVoidTag nm then [] else [HTok.tagC nm]) ++ tokenize0F n b
           else if c = '>' then tokenize0F n r3
           else HTok.comment a :: tokenize0F n b
         | [] => tokenize0F n b)
  | n + 1, '<' :: '!' :: '-' :: '-' :: r =>
    (match scanSplit commentCloseAt r with
     | some (a, b) => HTok.comment a :: tokenize0F n b
     | none =>
       let f := fallbackSplit ('!' :: '-' :: '-' :: r)
       f.1.map (fun d => HTok.text [d]) ++ tokenize0F n f.2)
  | n + 1, '<' :: '!' :: '[' :: r =>
    (if r.take 6 = "CDATA[".data then
      match scanSplit mscloseAt (r.drop 6) with
      | some (a, b) => HTok.cdata a :: tokenize0F n b
      | none =>
        let f := fallbackSplit ('!' :: '[' :: r)
        f.1.map (fun d => HTok.text [d]) ++ tokenize0F n f.2
    else
      let f := fallbackSplit ('!' :: '[' :: r)
      f.1.map (fun d => HTok.text [d]) ++ tokenize0F n f.2)
  | n + 1, '<' :: '!' :: r =>
    (match splitAtGt r with
     | some (a, b) =>
       if (r.take 7).map lowerC = "doctype".data then HTok.decl a :: tokenize0F n b
       else HTok.comment a :: tokenize0F n b
     | none =>
       let f := fallbackSplit ('!' :: r)
       f.1.map (fun d => HTok.text [d]) ++ tokenize0F n f.2)
  | n + 1, '<' :: '?' :: r =>
    (match splitAtGt r with
     | some (a, b) => HTok.pi a :: tokenize0F n b
     | none =>
       let f := fallbackSplit ('?' :: r)
       f.1.map (fun d => HTok.text [d]) ++ tokenize0F n f.2)
  | n + 1, '<' :: c :: rest =>
    (if isAsciiAlphaC c then
      match startTagStep c rest with
      | (ts, some r2) => ts ++ tokenize0F n r2
      | (ts, none) => ts
    else HTok.text ['<'] :: tokenize0F n (c :: rest))
  | n + 1, c :: rest => HTok.text [c] :: tokenize0F n rest

/-- `tokenize0F` with enough fuel. -/
def tokenize0 (l : List Char) : List HTok := tokenize0F (l.length + 1) l

/-- Coalesce adjacent text tokens (the tree builder buffers contiguous
data and joins it into one `NavigableString` at the next event). -/
def mergeTexts : List HTok → List HTok
  | [] => []
  | HTok.text a :: rest =>
    (match mergeTexts rest with
     | HTok.text b :: rest2 => HTok.text (a ++ b) :: rest2
     | r => HTok.text a :: r)
  | t :: rest => t :: mergeTexts rest

/-- Apply character-reference decoding to a text token. -/
def decodeTextTok : HTok → HTok
  | .text s => .text (decodeEnts s)
  | t => t

/-- The `html.parser` event stream of an input, flattened to document
order: the raw scan with text runs coalesced and references decoded. -/
def tokenizeHtml (l : List Char) : List HTok :=
  (mergeTexts (tokenize0 l)).map decodeTextTok

/-! ## The tree-construction pass of `BeautifulSoup`. -/

/-- `_popToTag`: find the most recent open element with the given name;
if present, return the names to close (innermost first, the sought tag
last) and the remaining stack; if absent, `none` (the end tag is
discarded and nothing is popped). -/
def popTo : List (List Char) → List Char → Option (List (List Char) × List (List Char))
  | [], _ => none
  | s :: rest, nm =>
    if s = nm then some ([s], rest)
    else
      match popTo rest nm with
      | some (cs, st) => some (s :: cs, st)
      | none => none

/-- The whitespace-preserving elements of the HTML tree builder
(`preserve_whitespace_tags`). -/
def preserveTags : List (List Char) := ["pre".data, "textarea".data]

/-- Whether some open element preserves whitespace. -/
def hasPreserve (stack : List (List Char)) : Bool :=
  stack.any (fun nm => preserveTags.contains nm)

/-- BeautifulSoup's `ASCII_SPACES` (space, newline, tab, form feed,
carriage return). -/
def isSoupWs (c : Char) : Bool :=
  c = ' ' || c = '\n' || c = '\t' || c = '\x0c' || c = '\x0d'

/-- Whether a string consists of `ASCII_SPACES` only. -/
def wsOnly (s : List Char) : Bool := s.all isSoupWs

/-- `endData`'s whitespace handling: outside whitespace-preserving
elements, a whitespace-only string is replaced by a single newline if it
contains one, else by its first character. -/
def collapseWs (pres : Bool) (s : List Char) : List Char :=
  if pres then s
  else if wsOnly s then (if s.contains '\n' then ['\n'] else s.take 1)
  else s

/-- The whitespace-separated ("CDATA list") attributes of the HTML tree
builder: `class`, `accesskey`, `dropzone` on every tag, plus a few
tag-specific ones (`rel`/`rev` on `a` and `link`, `headers` on
`td`/`th`, `accept-charset` on `form`, `archive` on `object`, `rel` on
`area`, `sizes` on `icon`, `sandbox` on `iframe`, `for` on `output`). -/
def isCdataListAttr (nm an : List Char) : Bool :=
  (["class".data, "accesskey".data, "dropzone".data].contains an) ||
  ((nm = "a".data || nm = "link".data) && (an = "rel".data || an = "rev".data)) ||
  ((nm = "td".data || nm = "th".data) && an = "headers".data) ||
  (nm = "form".data && an = "accept-charset".data) ||
  (nm = "object".data && an = "archive".data) ||
  (nm = "area".data && an = "rel".data) ||
  (nm = "icon".data && an = "sizes".data) ||
  (nm = "iframe".data && an = "sandbox".data) ||
  (nm = "output".data && an = "for".data)

/-- Maximal runs of non-whitespace characters (`re.findall(r'\S+', v)`),
with fuel. -/
def splitWsWordsF : Nat → List Char → List (List Char)
  | 0, _ => []
  | _ + 1, [] => []
  | n + 1, c :: rest =>
    if isWsC c then splitWsWordsF n (rest.dropWhile isWsC)
    else (c :: rest.takeWhile (fun d => !isWsC d)) ::
      splitWsWordsF n (rest.dropWhile (fun d => !isWsC d))

/-- `splitWsWordsF` with enough fuel. -/
def splitWsWords (s : List Char) : List (List Char) :=
  splitWsWordsF (s.length + 1) s

/-- Join words with single spaces (how a list-valued attribute is
re-joined on output). -/
def joinSpace : List (List Char) → List Char
  | [] => []
  | [w] => w
  | w :: ws => w ++ ' ' :: joinSpace ws

/-- A CDATA-list attribute value after the tree builder splits it and
`str(soup)` re-joins it: whitespace runs become single spaces, leading
and trailing whitespace disappears. -/
def normCdataVal (v : List Char) : List Char := joinSpace (splitWsWords v)

/-- Normalise the CDATA-list attribute values of one tag. -/
def normAttrs (nm : List Char) (attrs : List (List Char × List Char)) :
    List (List Char × List Char) :=
  attrs.map (fun a => if isCdataListAttr nm a.1 then (a.1, normCdataVal a.2) else a)

/-- The tree-construction pass over the event stream, carrying the stack
of open element names: a non-void start tag opens an element (and its
CDATA-list attribute values are normalised), an end tag closes through
the stack (`popTo`) or is discarded, strings are whitespace-collapsed
outside preserving elements, and elements still open at end of input are
closed.  The resulting stream is the flattened document tree that
`str(soup)` serialises. -/
def treeRepairAux : List HTok → List (List Char) → List HTok
  | [], stack => stack.map (fun nm => HTok.tagC nm)
  | HTok.text s :: ts, stack =>
    HTok.text (collapseWs (hasPreserve stack) s) :: treeRepairAux ts stack
  | HTok.comment s :: ts, stack =>
    HTok.comment (collapseWs (hasPreserve stack) s) :: treeRepairAux ts stack
  | HTok.pi s :: ts, stack =>
    HTok.pi (collapseWs (hasPreserve stack) s) :: treeRepairAux ts stack
  | HTok.decl s :: ts, stack =>
    HTok.decl (collapseWs (hasPreserve stack) s) :: treeRepairAux ts stack
  | HTok.cdata s :: ts, stack =>
    HTok.cdata (collapseWs (hasPreserve stack) s) :: treeRepairAux ts stack
  | HTok.raw s :: ts, stack =>
    HTok.raw (collapseWs (hasPreserve stack) s) :: treeRepairAux ts stack
  | HTok.tagO nm as :: ts, stack =>
    if isVoidTag nm then HTok.tagO nm (normAttrs nm as) :: treeRepairAux ts stack
    else HTok.tagO nm (normAttrs nm as) :: treeRepairAux ts (nm :: stack)
  | HTok.tagC nm :: ts, stack =>
    match popTo stack nm with
    | some (cs, st) => cs.map (fun m => HTok.tagC m) ++ treeRepairAux ts st
    | none => treeRepairAux ts stack

/-- The document tree of `BeautifulSoup(input, 'html.parser')` as a flat
token stream. -/
def treeRepair (ts : List HTok) : List HTok := treeRepairAux ts []

/-! ## The link rewriting pass itself. -/

/-- Python's substring containment `p in l`. -/
def hasSubstr : List Char → List Char → Bool
  | [], p => p.isEmpty
  | c :: t, p => p.isPrefixOf (c :: t) || hasSubstr t p

/-- The attachment-download path marker of `rewrite_links`. -/
def dlMarker : List Char := "/download/attachments/".data

/-- `os.path.basename(link.split('?')[0])`: cut at the first `?`, then
keep everything after the last `/`. -/
def basenameNoQuery (link : List Char) : List Char :=
  ((link.takeWhile (fun c => c != '?')).reverse.takeWhile
    (fun c => c != '/')).reverse

/-- The body of the `find_all(['img', 'a'])` loop of `rewrite_links` on
one tag: for an `img` the `src` attribute, for an `a` the `href`
attribute; when present and containing the marker it is replaced by
`attachments/<basename>`, otherwise the tag is left alone.  Non-tag
tokens and tags of other names pass through. -/
def rewriteTok (t : HTok) : HTok :=
  match t with
  | .tagO nm attrs =>
    match (if nm = "img".data then some ("src".data)
           else if nm = "a".data then some ("href".data) else none) with
    | none => t
    | some an =>
      match attrsGet attrs an with
      | none => t
      | some link =>
        if hasSubstr link dlMarker then
          .tagO nm (attrsInsert attrs an ("attachments/".data ++ basenameNoQuery link))
        else t
  | u => u

/-- `rewrite_links`: parse into the document tree, rewrite each tag in
document order, serialise. -/
def rewrite_links (s : String) : String :=
  String.mk (serToks ((treeRepair (tokenizeHtml s.data)).map rewriteTok))

/-- Attachment metadata as consumed by `export_page_content`:
`attachment.get('title')` and `attachment.get('_links', {}).get('download')`. -/
structure AttachmentMeta where
  title : Option String
  download : Option String
deriving DecidableEq, Repr

/-- `export_page_content`, returning the list of files written relative
to the page directory, in write order.  `content` is the outcome of
`get_page_content` (`None` on fetch error or missing value),
`attachments` the outcome of `get_page_attachments` (`None` on error),
`downloadOk` the network oracle for `download_attachment` keyed by the
download URL (on failure the function logs, writes nothing and returns
`False`), `pandoc` the external conversion service (`None` on failure).
An empty or missing body returns with no writes; an attachment is
downloaded only when both title and download link are truthy; page.md is
written only when the conversion yields non-empty output. -/
def export_page_content (content : Option String)
    (attachments : Option (List AttachmentMeta))
    (downloadOk : String → Bool)
    (pandoc : String → Option String)
    (base_url : String) : List String :=
  match content with
  | none => []
  | some html =>
    if html = "" then []
    else
      let attWrites :=
        match attachments with
        | none => []
        | some atts =>
          (atts.map fun a =>
            match a.title, a.download with
            | some t, some d =>
              if t = "" || d = "" then []
              else if downloadOk (base_url ++ d) then ["attachments/" ++ t]
              else []
            | _, _ => []).flatten
      attWrites ++
        (match pandoc (rewrite_links html) with
         | some m => if m = "" then [] else ["page.md"]
         | none => [])

/-- A space record as consumed by `main`: `id`, `key`, `name` may each be
missing. -/
structure SpaceRec where
  id : Option String
  key : Option String
  name : Option String
deriving DecidableEq, Repr

/-- Directory/file operations observable at the driver level. -/
inductive FsOp where
  | mkdirTop
  | spaceOp (w : String)
deriving DecidableEq, Repr

/-- The `main` driver (`confluence_fetcher.py` lines 200-255), modelled
to the depth the run-level claims need: the result is the process exit
status together with the filesystem operations performed, with the whole
per-space body abstracted as `perSpace` (it is never reached in the
scenarios at issue).  The function `return`s — a normal exit, status 0 —
when a credential variable is unset, when `get_spaces` fails (`None`),
and when it returns an empty list; there is no `sys.exit` anywhere in the
script.  Filtering by requested keys happens after the truthiness check
on the fetched list, and `os.makedirs(args.outputdir)` runs even when the
filtered selection is empty. -/
def main_run (emailSet tokenSet : Bool)
    (spacesResult : Option (List SpaceRec))
    (filterKeys : Option (List String))
    (perSpace : SpaceRec → List FsOp) : Nat × List FsOp :=
  if !emailSet || !tokenSet then (0, [])
  else
    match spacesResult with
    | none => (0, [])
    | some spaces =>
      if spaces.isEmpty then (0, [])
      else
        let selected :=
          match filterKeys with
          | none => spaces
          | some keys => spaces.filter fun s =>
              match s.key with
              | some k => keys.contains k
              | none => false
        (0, FsOp.mkdirTop :: (selected.map perSpace).flatten)

/-! ## Properties of the per-tag rewrite. -/

/-- Claim C1: for every paginated listing whose server responses split N
result items across K response pages (the empty run included), the
paginated fetch — `_paginated_get` and the per-resource loop of the
fetcher variant — returns exactly those N items concatenated in server
order, with page boundaries invisible. -/
theorem c1_pagination_concat :
    ∀ (α : Type) (rs : List (PageResp α)), chainedRun rs = true →
      paginated_get rs = (rs.map PageResp.results).flatten ∧
      fetcher_loop (rs.map some) = some ((rs.map PageResp.results).flatten) := by
  intro α rs h
  induction rs with
  | nil => exact ⟨rfl, rfl⟩
  | cons r rest ih =>
    cases rest with
    | nil =>
      have hn : r.next = none := by
        cases hx : r.next with
        | none => rfl
        | some v => simp [chainedRun, hx] at h
      simp [paginated_get, fetcher_loop, hn]
    | cons s t =>
      have hchain : chainedRun (s :: t) = true := by
        simp only [chainedRun, Bool.and_eq_true] at h
        exact h.2
      have hs : ∃ v, r.next = some v := by
        cases hx : r.next with
        | none => simp [chainedRun, hx] at h
        | some v => exact ⟨v, rfl⟩
      obtain ⟨v, hv⟩ := hs
      obtain ⟨ih1, ih2⟩ := ih hchain
      constructor
      · rw [paginated_get]
        simp [hv, ih1]
      · rw [List.map_cons, fetcher_loop]
        simp only [List.map_cons] at ih2
        simp [hv, ih2]

/-- Witness for C1 at a two-page run carrying three items. -/
theorem c1_pagination_concat_witness :
    paginated_get [⟨[1, 2], some "/wiki/api/v2/spaces?cursor=a"⟩, ⟨[3], none⟩]
      = [1, 2, 3] ∧
    fetcher_loop [some ⟨[1, 2], some "/wiki/api/v2/spaces?cursor=a"⟩,
      some ⟨[3], none⟩] = some [1, 2, 3] := by
  have h := c1_pagination_concat Nat
    [⟨[1, 2], some "/wiki/api/v2/spaces?cursor=a"⟩, ⟨[3], none⟩] (by decide)
  exact ⟨h.1, h.2⟩

/-- Claim C3: with two attachments on a page, a download failure for the
first one still lets `export_page_content` write the second attachment to
`attachments/<file name>` and still write `page.md`; the failure is
confined to that one attachment. -/
theorem c3_partial_attachment_failure
    (html base t1 d1 t2 d2 m : String)
    (dl : String → Bool) (pandoc : String → Option String)
    (hhtml : html ≠ "") (ht1 : t1 ≠ "") (hd1 : d1 ≠ "")
    (ht2 : t2 ≠ "") (hd2 : d2 ≠ "")
    (hfail : dl (base ++ d1) = false) (hok : dl (base ++ d2) = true)
    (hconv : pandoc (rewrite_links html) = some m) (hm : m ≠ "") :
    export_page_content (some html)
        (some [⟨some t1, some d1⟩, ⟨some t2, some d2⟩]) dl pandoc base
      = ["attachments/" ++ t2, "page.md"] := by
  simp [export_page_content, hhtml, ht1, hd1, ht2, hd2, hfail, hok, hconv, hm]

/-- Witness for C3 on a concrete page with two attachments whose first
download fails. -/
theorem c3_partial_attachment_failure_witness :
    export_page_content (some "<p>x</p>")
        (some [⟨some "a.png", some "/dl/a"⟩, ⟨some "b.png", some "/dl/b"⟩])
        (fun u => u == "B/dl/b") (fun _ => some "md") "B"
      = ["attachments/b.png", "page.md"] :=
  c3_partial_attachment_failure "<p>x</p>" "B" "a.png" "/dl/a" "b.png" "/dl/b"
    "md" (fun u => u == "B/dl/b") (fun _ => some "md")
    (by decide) (by decide) (by decide) (by decide) (by decide)
    (by decide) (by decide) rfl (by decide)

/-- Claim C4: when the content fetch fails (`None`) or returns an empty
body, `export_page_content` returns without writing anything — no
attachment file and no `page.md`. -/
theorem c4_empty_content_no_writes :
    ∀ (attachments : Option (List AttachmentMeta)) (dl : String → Bool)
      (pandoc : String → Option String) (base : String),
      export_page_content none attachments dl pandoc base = [] ∧
      export_page_content (some "") attachments dl pandoc base = [] := by
  intro attachments dl pandoc base
  exact ⟨rfl, by simp [export_page_content]⟩

/-- Claim C5 counterexample: starting a two-page paginated fetch with a
request parameter, the trace of issued requests shows the parameter sent
with the follow-up request too — `**kwargs` is passed inside the loop,
not only on the first iteration. -/
theorem c5_counterexample_params_resent :
    paginated_requests [("limit", "5")] "/spaces"
        ([⟨[1], some "/wiki/api/v2/spaces?cursor=x"⟩, ⟨[2], none⟩] :
          List (PageResp Nat))
      = [("/spaces", [("limit", "5")]),
         ("/spaces?cursor=x", [("limit", "5")])] ∧
    ([("limit", "5")] : List (String × String)) ≠ [] := by
  exact ⟨by decide, by decide⟩

/-- Claim C5 (amended): the request-specific parameters given to
`_paginated_get` are sent with every request of the run, the follow-up
page requests included. -/
theorem c5_amended_params_on_every_request :
    ∀ (α : Type) (kw : List (String × String)) (url : String)
      (rs : List (PageResp α)) (q : String × List (String × String)),
      q ∈ paginated_requests kw url rs → q.2 = kw := by
  intro α kw url rs
  induction rs generalizing url with
  | nil => intro q hq; simp [paginated_requests] at hq
  | cons r rest ih =>
    intro q hq
    simp only [paginated_requests] at hq
    rcases List.mem_cons.mp hq with h | h
    · rw [h]
    · cases hx : r.next with
      | none => rw [hx] at h; simp at h
      | some np => rw [hx] at h; exact ih _ _ h

/-- Witness for C5 (amended) at the second request of a concrete
two-page run. -/
theorem c5_amended_params_on_every_request_witness :
    (("/spaces?cursor=x", [("limit", "5")]) :
        String × List (String × String)).2 = [("limit", "5")] :=
  c5_amended_params_on_every_request Nat [("limit", "5")] "/spaces"
    [⟨[1], some "/wiki/api/v2/spaces?cursor=x"⟩, ⟨[2], none⟩]
    ("/spaces?cursor=x", [("limit", "5")]) (by decide)

/-- Claim C7: a next-page link starting with the API version segment
`/wiki/api/v2` is turned into the next request path by removing that
segment (this is exactly the derivation `paginated_requests` performs),
and re-prefixing the derived path restores the original link. -/
theorem c7_next_link_round_trip :
    ∀ np : String, apiV2.data.isPrefixOf np.data = true →
      apiV2 ++ pyRemovePfx np apiV2 = np ∧
      ∀ (α : Type) (kw : List (String × String)) (url : String)
        (res : List α) (rs : List (PageResp α)),
        paginated_requests kw url (⟨res, some np⟩ :: rs)
          = (url, kw) :: paginated_requests kw (pyRemovePfx np apiV2) rs := by
  intro np hp
  constructor
  · obtain ⟨t, ht⟩ := List.isPrefixOf_iff_prefix.mp hp
    apply String.ext
    rw [String.data_append]
    have hpy : (pyRemovePfx np apiV2).data = np.data.drop apiV2.data.length := by
      simp [pyRemovePfx, hp]
    rw [hpy, ← ht, List.drop_left]
  · intro α kw url res rs
    rfl

/-- Witness for C7 at a concrete cursor link. -/
theorem c7_next_link_round_trip_witness :
    apiV2 ++ pyRemovePfx "/wiki/api/v2/spaces?cursor=abc" apiV2
      = "/wiki/api/v2/spaces?cursor=abc" :=
  (c7_next_link_round_trip "/wiki/api/v2/spaces?cursor=abc" (by decide)).1

/-- Claim C8: `sanitize_directory_name` replaces each occurrence of
`< > : " / \ | ? *` and of the space character by an underscore and
leaves every other character unchanged; in particular `My:Space/Name`
becomes `My_Space_Name` and `A B` becomes `A_B`. -/
theorem c8_sanitize_charwise :
    (∀ name : String, sanitize_directory_name name = claimSanitize name) ∧
    sanitize_directory_name "My:Space/Name" = "My_Space_Name" ∧
    sanitize_directory_name "A B" = "A_B" := by
  refine ⟨?_, by decide, by decide⟩
  intro name
  unfold sanitize_directory_name claimSanitize
  rw [List.map_map]
  congr 1
  apply List.map_congr_left
  intro c _
  by_cases hb : invalidDirChar c = true
  · simp [hb, Function.comp]
  · by_cases hs : c = ' ' <;>
      simp [hb, hs, Function.comp]

/-- Claim C9 counterexample: with credentials set, a total spaces-fetch
failure makes `main` return normally — process exit status 0, not
non-zero — with no directory writes; an empty post-filter space set also
exits with status 0, after creating only the top-level output
directory. -/
theorem c9_counterexample_exit_zero :
    main_run true true none none (fun _ => []) = (0, []) ∧
    main_run true true (some [⟨some "1", some "ENG", some "Eng"⟩])
        (some ["OTHER"]) (fun _ => [FsOp.spaceOp "w"])
      = (0, [FsOp.mkdirTop]) := by
  exact ⟨rfl, by decide⟩

/-- Claim C9 (amended): the two terminal scenarios end the run with exit
status 0 (the script has no non-zero exit path): a failed spaces fetch
performs no writes at all, and a non-empty listing whose post-filter
selection is empty creates only the top-level output directory. -/
theorem c9_amended_exit_status :
    ∀ (fk : Option (List String)) (ps : SpaceRec → List FsOp),
      main_run true true none fk ps = (0, []) ∧
      ∀ (spaces : List SpaceRec) (keys : List String),
        spaces ≠ [] →
        (spaces.filter fun s =>
          match s.key with
          | some k => keys.contains k
          | none => false) = [] →
        main_run true true (some spaces) (some keys) ps = (0, [FsOp.mkdirTop]) := by
  intro fk ps
  constructor
  · rfl
  · intro spaces keys hne hfil
    simp only [main_run, Bool.not_true, Bool.or_self, Bool.false_eq_true,
      if_false]
    rw [if_neg]
    · rw [hfil]
      rfl
    · simp [List.isEmpty_iff, hne]

/-- Witness for C9 (amended) on a one-space listing filtered by a
non-matching key. -/
theorem c9_amended_exit_status_witness :
    main_run true true (some [⟨some "1", some "ENG", some "Eng"⟩])
        (some ["X"]) (fun _ => []) = (0, [FsOp.mkdirTop]) :=
  (c9_amended_exit_status (some ["X"]) (fun _ => [])).2
    [⟨some "1", some "ENG", some "Eng"⟩] ["X"] (by decide) (by decide)

/-! ## Theorems: the link rewriting pass. -/

set_option maxRecDepth 8000

